import Mathlib

/-!
Verification development for the SDRangel DSP core: the spectrum analysis
pipeline (`src/sdrbase/dsp/spectrumvis.cpp`) and the CIC-compensation FIR
impulse synthesis (`src/wdsp/icfir.cpp`).

Floating-point values of the C++ source are embedded as exact real numbers;
integer index computations are embedded as `Nat`/`Int` computations, and the
rational guard arithmetic (frequency comparisons) as exact `Rat` arithmetic.
External collaborators (FFT engine, window function, averaging utilities,
`FIR::fir_fsamp`) are not under `src/`; where needed they are modelled from
the specification and marked as such.
-/

namespace SdrAngel

/-- Complex sample, embedding `std::complex<float>` as a pair of reals. -/
structure Cplx where
  re : ℝ
  im : ℝ

/-- Averaging mode enumeration, from `GLSpectrumSettings::AveragingMode`. -/
inductive AveragingMode where
  | avgModeNone
  | avgModeMoving
  | avgModeFixed
  | avgModeMax
  deriving DecidableEq

/-- The fields of `GLSpectrumSettings` consumed by `SpectrumVis`. -/
structure GLSpectrumSettings where
  fftSize : ℤ
  fftWindow : ℕ
  fftOverlap : ℤ
  averagingMode : AveragingMode
  averagingIndex : ℕ
  refLevel : ℝ
  powerRange : ℝ
  linear : Bool
  ssb : Bool
  usb : Bool
  wsSpectrumAddress : String
  wsSpectrumPort : ℕ

/-- The constant `MAX_FFT_SIZE` from `spectrumvis.cpp`. -/
def maxFFTSize : ℤ := 4096

/-- State of a `SpectrumVis` object (the member variables of the class that
the modelled operations read or write). Buffers are embedded as total
functions from indices; the C++ vectors have fixed capacity `MAX_FFT_SIZE`
and only the prefix of the current FFT size is meaningful. The three
averaging utilities (`m_movingAverage`, `m_fixedAverage`, `m_max`) are
repository classes not under `src/`; their per-bin state is modelled from
the spec (section 4.4) as an accumulator function plus counters. -/
structure VisState where
  running : Bool
  hasFFT : Bool
  fftEngineSequence : ℕ
  fftBuffer : ℕ → Cplx
  powerSpectrum : ℕ → ℝ
  fftBufferFill : ℕ
  needMoreSamples : Bool
  scalef : ℝ
  glSpectrum : Bool
  wsOpen : Bool
  centerFrequency : ℕ
  sampleRate : ℤ
  ofs : ℝ
  powFFTDiv : ℝ
  settings : GLSpectrumSettings
  window : ℕ → ℝ
  overlapSize : ℕ
  refillSize : ℕ
  movingAvg : ℕ → ℝ
  movingLen : ℕ
  fixedSum : ℕ → ℝ
  fixedCount : ℕ
  fixedLen : ℕ
  maxHold : ℕ → ℝ
  maxCount : ℕ
  maxLen : ℕ

/-- The current FFT size as a natural number (the C++ code stores it as a
positive `int` inside the settings). -/
def fftSizeN (s : VisState) : ℕ := s.settings.fftSize.toNat

/-- Modelled from the spec: `GLSpectrumSettings::getAveragingValue` (the
class lives outside `src/`) resolves an averaging index to the averaging
amount. Its exact table is external; only the resolved value's use as a
buffer length matters here, so it is modelled as an unspecified function of
the index. -/
def getAveragingValue (averagingIndex : ℕ) (_averagingMode : AveragingMode) : ℕ :=
  averagingIndex + 1

/-- Modelled from the spec: the external window-function collaborator
`FFTWindow::create(windowType, size)` (section 6) producing elementwise
window coefficients. No claim depends on the coefficient values. -/
def windowCreate (_wintype : ℕ) (_size : ℕ) : ℕ → ℝ :=
  fun _ => 1

/-- Which rebuild actions a call to `applySettings` performed. Each field
records that the corresponding guarded block of `SpectrumVis::applySettings`
ran (and, for the engine, whether a previous engine was released). -/
structure ApplyEffects where
  engineReleased : Prop
  engineAcquired : Prop
  windowRebuilt : Prop
  overlapReset : Prop
  accumulatorsReset : Prop
  wsReconfigured : Prop

/-- The fftSize clamp of `SpectrumVis::applySettings` (lines 660-664). -/
def clampFftSize (x : ℤ) : ℤ :=
  if x > maxFFTSize then maxFFTSize else if x < 64 then 64 else x

/-- The overlap-percent clamp of `SpectrumVis::applySettings` (lines 666-670). -/
def clampOverlap (x : ℤ) : ℤ :=
  if x > 100 then 100 else if x < 0 then 0 else x

/-- Embedding of `SpectrumVis::applySettings` (spectrumvis.cpp lines
656-733): clamp the requested fftSize and overlap, run the five guarded
rebuild blocks, and store the clamped settings. Returns the new state and
the record of which rebuilds took place. -/
noncomputable def applySettings (settings : GLSpectrumSettings) (force : Bool)
    (s : VisState) : VisState × ApplyEffects :=
  let fftSize := clampFftSize settings.fftSize
  let overlapPercent := clampOverlap settings.fftOverlap
  let engineRedo := fftSize ≠ s.settings.fftSize ∨ force = true
  let s1 :=
    if engineRedo then
      { s with hasFFT := true,
               fftEngineSequence := s.fftEngineSequence + 1,
               ofs := 20 * Real.logb 10 (1 / (fftSize : ℝ)),
               powFFTDiv := (fftSize : ℝ) * (fftSize : ℝ) }
    else s
  let windowRedo := fftSize ≠ s.settings.fftSize
      ∨ settings.fftWindow ≠ s.settings.fftWindow ∨ force = true
  let s2 :=
    if windowRedo then
      { s1 with window := windowCreate settings.fftWindow fftSize.toNat }
    else s1
  let overlapRedo := fftSize ≠ s.settings.fftSize
      ∨ overlapPercent ≠ s.settings.fftOverlap ∨ force = true
  let s3 :=
    if overlapRedo then
      { s2 with overlapSize := ((fftSize * overlapPercent) / 100).toNat,
                refillSize := (fftSize - (fftSize * overlapPercent) / 100).toNat,
                fftBufferFill := ((fftSize * overlapPercent) / 100).toNat }
    else s2
  let avgRedo := fftSize ≠ s.settings.fftSize
      ∨ settings.averagingIndex ≠ s.settings.averagingIndex
      ∨ settings.averagingMode ≠ s.settings.averagingMode ∨ force = true
  let s4 :=
    if avgRedo then
      let averagingValue := getAveragingValue settings.averagingIndex settings.averagingMode
      { s3 with movingAvg := fun _ => 0,
                movingLen := if averagingValue > 1000 then 1000 else averagingValue,
                fixedSum := fun _ => 0,
                fixedCount := 0,
                fixedLen := averagingValue,
                maxHold := fun _ => 0,
                maxCount := 0,
                maxLen := averagingValue }
    else s3
  let wsRedo := settings.wsSpectrumAddress ≠ s.settings.wsSpectrumAddress
      ∨ settings.wsSpectrumPort ≠ s.settings.wsSpectrumPort ∨ force = true
  let s5 := { s4 with settings :=
      { settings with fftSize := fftSize, fftOverlap := overlapPercent } }
  (s5,
   { engineReleased := engineRedo ∧ s.hasFFT = true,
     engineAcquired := engineRedo,
     windowRebuilt := windowRedo,
     overlapReset := overlapRedo,
     accumulatorsReset := avgRedo,
     wsReconfigured := wsRedo })

/-- The settings fields reported back by the settings-read path
(`SpectrumVis::webapiSpectrumSettingsGet` via `webapiFormatSpectrumSettings`,
restricted to the two clamped fields). -/
structure SpectrumSizeResponse where
  fftSize : ℤ
  fftOverlap : ℤ

/-- Embedding of the fftSize/fftOverlap part of
`SpectrumVis::webapiFormatSpectrumSettings` (lines 873-874): the response is
filled from the stored settings. -/
def webapiFormatSpectrumSettings (settings : GLSpectrumSettings) : SpectrumSizeResponse :=
  ⟨settings.fftSize, settings.fftOverlap⟩

theorem applySettings_settings_fftSize (settings : GLSpectrumSettings) (force : Bool)
    (s : VisState) :
    (applySettings settings force s).1.settings.fftSize = clampFftSize settings.fftSize := rfl

theorem applySettings_settings_fftOverlap (settings : GLSpectrumSettings) (force : Bool)
    (s : VisState) :
    (applySettings settings force s).1.settings.fftOverlap = clampOverlap settings.fftOverlap := rfl

theorem applySettings_settings_rest (settings : GLSpectrumSettings) (force : Bool)
    (s : VisState) :
    (applySettings settings force s).1.settings.fftWindow = settings.fftWindow
    ∧ (applySettings settings force s).1.settings.averagingIndex = settings.averagingIndex
    ∧ (applySettings settings force s).1.settings.averagingMode = settings.averagingMode
    ∧ (applySettings settings force s).1.settings.wsSpectrumAddress = settings.wsSpectrumAddress
    ∧ (applySettings settings force s).1.settings.wsSpectrumPort = settings.wsSpectrumPort :=
  ⟨rfl, rfl, rfl, rfl, rfl⟩

/-- Claim C5: `applySettings` never rejects a configuration: for every
requested settings record the call completes, the stored fftSize is the
requested one clamped into [64, 4096], the stored overlap percent is the
requested one clamped into [0, 100], and the settings-read path
(`webapiFormatSpectrumSettings`) reports exactly these clamped values. -/
theorem spectrumvis_applySettings_clamps (settings : GLSpectrumSettings) (force : Bool)
    (s : VisState) :
    64 ≤ (applySettings settings force s).1.settings.fftSize
    ∧ (applySettings settings force s).1.settings.fftSize ≤ 4096
    ∧ 0 ≤ (applySettings settings force s).1.settings.fftOverlap
    ∧ (applySettings settings force s).1.settings.fftOverlap ≤ 100
    ∧ (applySettings settings force s).1.settings.fftSize = clampFftSize settings.fftSize
    ∧ (applySettings settings force s).1.settings.fftOverlap = clampOverlap settings.fftOverlap
    ∧ (webapiFormatSpectrumSettings (applySettings settings force s).1.settings).fftSize
        = clampFftSize settings.fftSize
    ∧ (webapiFormatSpectrumSettings (applySettings settings force s).1.settings).fftOverlap
        = clampOverlap settings.fftOverlap := by
  have hs := applySettings_settings_fftSize settings force s
  have ho := applySettings_settings_fftOverlap settings force s
  refine ⟨?_, ?_, ?_, ?_, hs, ho, hs, ho⟩
  · rw [hs]; unfold clampFftSize maxFFTSize; split <;> [omega; skip]; split <;> omega
  · rw [hs]; unfold clampFftSize maxFFTSize; split <;> [omega; skip]; split <;> omega
  · rw [ho]; unfold clampOverlap; split <;> [omega; skip]; split <;> omega
  · rw [ho]; unfold clampOverlap; split <;> [omega; skip]; split <;> omega

/-- Claim C4: calling `applySettings` with `force = true` and then again with
the identical requested configuration and `force = false` performs no
resource rebuild on the second call: the transform engine is neither
released nor re-acquired, the window coefficients are not rebuilt, and the
averaging accumulators are not reset. -/
theorem spectrumvis_applySettings_idempotent (settings : GLSpectrumSettings)
    (s : VisState) :
    ¬ (applySettings settings false (applySettings settings true s).1).2.engineReleased
    ∧ ¬ (applySettings settings false (applySettings settings true s).1).2.engineAcquired
    ∧ ¬ (applySettings settings false (applySettings settings true s).1).2.windowRebuilt
    ∧ ¬ (applySettings settings false (applySettings settings true s).1).2.accumulatorsReset := by
  have hs := applySettings_settings_fftSize settings true s
  have ho := applySettings_settings_fftOverlap settings true s
  have hr := applySettings_settings_rest settings true s
  obtain ⟨hw, hai, ham, -, -⟩ := hr
  constructor
  · intro h
    have := h.1
    rw [show (applySettings settings false (applySettings settings true s).1).2.engineReleased
        = ((clampFftSize settings.fftSize ≠ (applySettings settings true s).1.settings.fftSize
            ∨ false = true) ∧ (applySettings settings true s).1.hasFFT = true) from rfl] at h
    rcases h.1 with h' | h'
    · exact h' hs.symm
    · exact Bool.false_ne_true h'
  constructor
  · intro h
    rw [show (applySettings settings false (applySettings settings true s).1).2.engineAcquired
        = (clampFftSize settings.fftSize ≠ (applySettings settings true s).1.settings.fftSize
            ∨ false = true) from rfl] at h
    rcases h with h' | h'
    · exact h' hs.symm
    · exact Bool.false_ne_true h'
  constructor
  · intro h
    rw [show (applySettings settings false (applySettings settings true s).1).2.windowRebuilt
        = (clampFftSize settings.fftSize ≠ (applySettings settings true s).1.settings.fftSize
            ∨ settings.fftWindow ≠ (applySettings settings true s).1.settings.fftWindow
            ∨ false = true) from rfl] at h
    rcases h with h' | h' | h'
    · exact h' hs.symm
    · exact h' hw.symm
    · exact Bool.false_ne_true h'
  · intro h
    rw [show (applySettings settings false (applySettings settings true s).1).2.accumulatorsReset
        = (clampFftSize settings.fftSize ≠ (applySettings settings true s).1.settings.fftSize
            ∨ settings.averagingIndex ≠ (applySettings settings true s).1.settings.averagingIndex
            ∨ settings.averagingMode ≠ (applySettings settings true s).1.settings.averagingMode
            ∨ false = true) from rfl] at h
    rcases h with h' | h' | h' | h'
    · exact h' hs.symm
    · exact h' hai.symm
    · exact h' ham.symm
    · exact Bool.false_ne_true h'

/-- The display constant `m_mult = 10 / log2(10)` (spectrumvis.cpp line 48). -/
noncomputable def mMult : ℝ := 10 / Real.logb 2 10

/-- Instantaneous power of an FFT bin: `re*re + im*im`. -/
def powerOf (c : Cplx) : ℝ := c.re * c.re + c.im * c.im

/-- The per-bin display transform used by every branch of `feed`:
`linear ? v/m_powFFTDiv : m_mult*log2(v) + m_ofs`. -/
noncomputable def dispTransform (s : VisState) (v : ℝ) : ℝ :=
  if s.settings.linear = true then v / s.powFFTDiv else mMult * Real.logb 2 v + s.ofs

/-- Input sample scaling on ingestion: `Complex(real/m_scalef, imag/m_scalef)`. -/
noncomputable def scaleIn (scalef : ℝ) (c : Cplx) : Cplx :=
  ⟨c.re / scalef, c.im / scalef⟩

/-- The window application `m_window.apply(&m_fftBuffer[0], m_fft->in())`:
elementwise multiplication of the staged samples by the window coefficients
(the external window collaborator, section 6 of the spec). -/
noncomputable def windowedBuf (s : VisState) : ℕ → Cplx :=
  fun j => ⟨s.window j * (s.fftBuffer j).re, s.window j * (s.fftBuffer j).im⟩

/-- A published frame: the power-spectrum buffer handed to the display sink
together with the FFT size (`m_glSpectrum->newSpectrum(m_powerSpectrum,
m_settings.m_fftSize)`). -/
def Frame : Type := (ℕ → ℝ) × ℕ

/-- Frames handed to the display sink for one completed FFT: one frame when a
display is attached, none otherwise. (The websocket sink is fan-out only and
carries the same data; it is not separately modelled.) -/
def pubIfDisplay (s : VisState) (ps : ℕ → ℝ) : List Frame :=
  if s.glSpectrum = true then [(ps, fftSizeN s)] else []

/-- The frequency-reorder step of the `AvgModeNone` branch of `feed`
(spectrumvis.cpp lines 332-359), as an update of the power-spectrum buffer.
When `positiveOnly` holds, bin `i < fftSize/2` is written to positions `2i`
and `2i+1`; otherwise bin `i+fftSize/2` goes to position `i` and bin `i` to
position `i+fftSize/2` (FFT-shift). Positions at or beyond `fftSize` keep
their previous contents. -/
noncomputable def reorderNone (s : VisState) (fftOut : ℕ → Cplx)
    (positiveOnly : Bool) : ℕ → ℝ :=
  let half := fftSizeN s / 2
  if positiveOnly = true then
    fun j => if j < 2 * half then dispTransform s (powerOf (fftOut (j / 2)))
             else s.powerSpectrum j
  else
    fun j =>
      if j < half then dispTransform s (powerOf (fftOut (j + half)))
      else if j < 2 * half then dispTransform s (powerOf (fftOut (j - half)))
      else s.powerSpectrum j

/-- Modelled from the spec: `MovingAverageUtil2D::storeAndGetAvg` (the
averaging utilities are repository headers not under `src/`); section 4.4
describes a windowed running average of window length `n`, modelled here as
a running mean of that length. No claim depends on the averaged values. -/
noncomputable def movingStore (old v : ℝ) (n : ℕ) : ℝ :=
  (((n : ℝ) - 1) * old + v) / n

/-- The `AvgModeMoving` branch of the frame processing (modelled from the
spec, section 4.4): update the per-bin running average with this frame's
power and display every frame. -/
noncomputable def frameMoving (s : VisState) (fftOut : ℕ → Cplx)
    (positiveOnly : Bool) : VisState × List Frame :=
  let half := fftSizeN s / 2
  let avg1 : ℕ → ℝ :=
    if positiveOnly = true then
      fun j => if j < half then movingStore (s.movingAvg j) (powerOf (fftOut j)) s.movingLen
               else s.movingAvg j
    else
      fun j => if j < 2 * half then movingStore (s.movingAvg j) (powerOf (fftOut j)) s.movingLen
               else s.movingAvg j
  let ps1 : ℕ → ℝ :=
    if positiveOnly = true then
      fun j => if j < 2 * half then dispTransform s (avg1 (j / 2)) else s.powerSpectrum j
    else
      fun j =>
        if j < half then dispTransform s (avg1 (j + half))
        else if j < 2 * half then dispTransform s (avg1 (j - half))
        else s.powerSpectrum j
  ({ s with movingAvg := avg1, powerSpectrum := ps1 }, pubIfDisplay s ps1)

/-- The `AvgModeFixed` branch of the frame processing (modelled from the
spec, section 4.4): accumulate per-bin sums; every `fixedLen`-th frame the
completed averages are displayed and the accumulators reset. -/
noncomputable def frameFixed (s : VisState) (fftOut : ℕ → Cplx)
    (positiveOnly : Bool) : VisState × List Frame :=
  let half := fftSizeN s / 2
  let touched : ℕ → Prop := fun j => if positiveOnly = true then j < half else j < 2 * half
  let sum1 : ℕ → ℝ :=
    fun j => if touched j then s.fixedSum j + powerOf (fftOut j) else s.fixedSum j
  if s.fixedCount + 1 = s.fixedLen then
    let ps1 : ℕ → ℝ :=
      if positiveOnly = true then
        fun j => if j < 2 * half then dispTransform s (sum1 (j / 2) / s.fixedLen)
                 else s.powerSpectrum j
      else
        fun j =>
          if j < half then dispTransform s (sum1 (j + half) / s.fixedLen)
          else if j < 2 * half then dispTransform s (sum1 (j - half) / s.fixedLen)
          else s.powerSpectrum j
    ({ s with fixedSum := fun _ => 0, fixedCount := 0, powerSpectrum := ps1 },
     pubIfDisplay s ps1)
  else
    ({ s with fixedSum := sum1, fixedCount := s.fixedCount + 1 }, [])

/-- The `AvgModeMax` branch of the frame processing (modelled from the spec,
section 4.4): track the per-bin running maximum; every `maxLen`-th frame the
completed maxima are displayed and the tracker reset. -/
noncomputable def frameMax (s : VisState) (fftOut : ℕ → Cplx)
    (positiveOnly : Bool) : VisState × List Frame :=
  let half := fftSizeN s / 2
  let touched : ℕ → Prop := fun j => if positiveOnly = true then j < half else j < 2 * half
  let mx1 : ℕ → ℝ :=
    fun j => if touched j then max (s.maxHold j) (powerOf (fftOut j)) else s.maxHold j
  if s.maxCount + 1 = s.maxLen then
    let ps1 : ℕ → ℝ :=
      if positiveOnly = true then
        fun j => if j < 2 * half then dispTransform s (mx1 (j / 2)) else s.powerSpectrum j
      else
        fun j =>
          if j < half then dispTransform s (mx1 (j + half))
          else if j < 2 * half then dispTransform s (mx1 (j - half))
          else s.powerSpectrum j
    ({ s with maxHold := fun _ => 0, maxCount := 0, powerSpectrum := ps1 },
     pubIfDisplay s ps1)
  else
    ({ s with maxHold := mx1, maxCount := s.maxCount + 1 }, [])

/-- Processing of one completed FFT frame inside `SpectrumVis::feed`
(spectrumvis.cpp lines 320-568): apply the window, run the external
transform engine (a black box, passed as `engine`), compute per-bin power,
reorder, apply the selected averaging policy, and publish when the policy
reports a result. -/
noncomputable def processFrame (engine : (ℕ → Cplx) → ℕ → Cplx)
    (positiveOnly : Bool) (s : VisState) : VisState × List Frame :=
  let fftOut := engine (windowedBuf s)
  match s.settings.averagingMode with
  | AveragingMode.avgModeNone =>
      let ps1 := reorderNone s fftOut positiveOnly
      ({ s with powerSpectrum := ps1 }, pubIfDisplay s ps1)
  | AveragingMode.avgModeMoving => frameMoving s fftOut positiveOnly
  | AveragingMode.avgModeFixed => frameFixed s fftOut positiveOnly
  | AveragingMode.avgModeMax => frameMax s fftOut positiveOnly

/-- Writing a chunk of scaled samples into the staging buffer starting at
position `start` (the iterator fill loops of `feed`). -/
def writeChunk (buf : ℕ → Cplx) (start : ℕ) (xs : List Cplx) : ℕ → Cplx :=
  fun j => if start ≤ j ∧ j < start + xs.length then xs.getD (j - start) ⟨0, 0⟩ else buf j

/-- The overlap slide `std::copy(m_fftBuffer.begin() + m_refillSize,
m_fftBuffer.end(), m_fftBuffer.begin())` over the fixed-capacity buffer:
position `j < cap - refill` receives the old value at `j + refill`, the
tail keeps its old contents. -/
def slideBuf (buf : ℕ → Cplx) (cap refill : ℕ) : ℕ → Cplx :=
  fun j => if j < cap - refill then buf (j + refill) else buf j

/-- The while loop of `SpectrumVis::feed` (spectrumvis.cpp lines 305-588).
`fuel` bounds the number of iterations; in the source the loop terminates
because each full-frame iteration consumes `refillSize - fill > 0` samples,
and every theorem below supplies sufficient fuel. Returns the final state
and the concatenated list of frames published to the display sink. -/
noncomputable def feedLoop (engine : (ℕ → Cplx) → ℕ → Cplx) (positiveOnly : Bool) :
    ℕ → VisState → List Cplx → VisState × List Frame
  | 0, s, _ => (s, [])
  | fuel + 1, s, input =>
    if input.isEmpty = true then (s, []) else
    let todo := input.length
    let samplesNeeded := s.refillSize - s.fftBufferFill
    if samplesNeeded ≤ todo then
      let buf1 := writeChunk s.fftBuffer s.fftBufferFill
        ((input.take samplesNeeded).map (scaleIn s.scalef))
      let s1 := { s with fftBuffer := buf1 }
      let r2 := processFrame engine positiveOnly s1
      let s3 := { r2.1 with
        fftBuffer := slideBuf r2.1.fftBuffer maxFFTSize.toNat r2.1.refillSize,
        fftBufferFill := r2.1.overlapSize,
        needMoreSamples := false }
      let r4 := feedLoop engine positiveOnly fuel s3 (input.drop samplesNeeded)
      (r4.1, r2.2 ++ r4.2)
    else
      ({ s with
          fftBuffer := writeChunk s.fftBuffer s.fftBufferFill (input.map (scaleIn s.scalef)),
          fftBufferFill := s.fftBufferFill + todo,
          needMoreSamples := true }, [])

/-- Embedding of the streaming overload `SpectrumVis::feed(cbegin, end,
positiveOnly)` (spectrumvis.cpp lines 288-591): no-op while stopped, no-op
when no sink is attached, otherwise run the buffering loop. The mutex
try-acquire is modelled as always succeeding (single-threaded embedding). -/
noncomputable def feed (engine : (ℕ → Cplx) → ℕ → Cplx) (positiveOnly : Bool)
    (s : VisState) (input : List Cplx) : VisState × List Frame :=
  if s.running = false then (s, [])
  else if s.glSpectrum = false ∧ s.wsOpen = false then (s, [])
  else feedLoop engine positiveOnly (input.length + 1) s input

/-- Embedding of `SpectrumVis::start` (line 593): set the running flag. -/
def start (s : VisState) : VisState := { s with running := true }

/-- Embedding of `SpectrumVis::stop` (line 598): clear the running flag. -/
def stop (s : VisState) : VisState := { s with running := false }

/-- The power-spectrum buffer written by the `AvgModeNone` branch of the
per-bin overload `SpectrumVis::feed(const Complex*, unsigned int)`
(spectrumvis.cpp lines 123-137): every bin `i < fftSize` is processed, the
input being `begin[i]` when `i < length` and the zero sample otherwise. -/
noncomputable def feedBinsPS (s : VisState) (begin_ : ℕ → Cplx) (length : ℕ) : ℕ → ℝ :=
  fun i =>
    if i < fftSizeN s then
      dispTransform s (powerOf (if i < length then begin_ i else ⟨0, 0⟩))
    else s.powerSpectrum i

/-- Embedding of the per-bin overload `SpectrumVis::feed(const Complex*,
unsigned int)` (spectrumvis.cpp lines 110-286). It does not consult the
running flag; it returns immediately only when no sink is attached. The
non-None averaging branches follow the spec-modelled accumulators above. -/
noncomputable def feedBins (s : VisState) (begin_ : ℕ → Cplx) (length : ℕ) :
    VisState × List Frame :=
  if s.glSpectrum = false ∧ s.wsOpen = false then (s, [])
  else
    match s.settings.averagingMode with
    | AveragingMode.avgModeNone =>
        let ps1 := feedBinsPS s begin_ length
        ({ s with powerSpectrum := ps1 }, pubIfDisplay s ps1)
    | AveragingMode.avgModeMoving =>
        let n := fftSizeN s
        let avg1 : ℕ → ℝ :=
          fun j => if j < n then
              movingStore (s.movingAvg j)
                (powerOf (if j < length then begin_ j else ⟨0, 0⟩)) s.movingLen
            else s.movingAvg j
        let ps1 : ℕ → ℝ :=
          fun j => if j < n then dispTransform s (avg1 j) else s.powerSpectrum j
        ({ s with movingAvg := avg1, powerSpectrum := ps1 }, pubIfDisplay s ps1)
    | AveragingMode.avgModeFixed =>
        let n := fftSizeN s
        let sum1 : ℕ → ℝ :=
          fun j => if j < n then
              s.fixedSum j + powerOf (if j < length then begin_ j else ⟨0, 0⟩)
            else s.fixedSum j
        if s.fixedCount + 1 = s.fixedLen then
          let ps1 : ℕ → ℝ :=
            fun j => if j < n then dispTransform s (sum1 j / s.fixedLen)
                     else s.powerSpectrum j
          ({ s with fixedSum := fun _ => 0, fixedCount := 0, powerSpectrum := ps1 },
           pubIfDisplay s ps1)
        else
          ({ s with fixedSum := sum1, fixedCount := s.fixedCount + 1 }, [])
    | AveragingMode.avgModeMax =>
        let n := fftSizeN s
        let mx1 : ℕ → ℝ :=
          fun j => if j < n then
              max (s.maxHold j) (powerOf (if j < length then begin_ j else ⟨0, 0⟩))
            else s.maxHold j
        if s.maxCount + 1 = s.maxLen then
          let ps1 : ℕ → ℝ :=
            fun j => if j < n then dispTransform s (mx1 j) else s.powerSpectrum j
          ({ s with maxHold := fun _ => 0, maxCount := 0, powerSpectrum := ps1 },
           pubIfDisplay s ps1)
        else
          ({ s with maxHold := mx1, maxCount := s.maxCount + 1 }, [])

/-- A concrete settings record used by the closed witness statements:
fftSize 64, 0% overlap, no averaging, linear display. -/
noncomputable def sampleSettings : GLSpectrumSettings :=
  { fftSize := 64, fftWindow := 0, fftOverlap := 0,
    averagingMode := AveragingMode.avgModeNone, averagingIndex := 0,
    refLevel := 0, powerRange := 100, linear := true, ssb := false, usb := false,
    wsSpectrumAddress := "", wsSpectrumPort := 8887 }

/-- A concrete pipeline state used by the closed witness statements: running,
display sink attached, configured for `sampleSettings` (so `refillSize = 64`,
`overlapSize = 0`, empty staging buffer). -/
noncomputable def sampleState : VisState :=
  { running := true, hasFFT := true, fftEngineSequence := 0,
    fftBuffer := fun _ => ⟨0, 0⟩, powerSpectrum := fun _ => 0, fftBufferFill := 0,
    needMoreSamples := false, scalef := 1, glSpectrum := true, wsOpen := false,
    centerFrequency := 0, sampleRate := 48000, ofs := 0, powFFTDiv := 1,
    settings := sampleSettings, window := fun _ => 1, overlapSize := 0, refillSize := 64,
    movingAvg := fun _ => 0, movingLen := 1, fixedSum := fun _ => 0, fixedCount := 0,
    fixedLen := 1, maxHold := fun _ => 0, maxCount := 0, maxLen := 1 }

/-- A concrete black-box transform engine for witnesses (the identity map on
bin functions). -/
def sampleEngine : (ℕ → Cplx) → ℕ → Cplx := fun f => f

/-- A concrete bin-input function for witnesses. -/
noncomputable def sampleBins : ℕ → Cplx := fun _ => ⟨1, 0⟩

/-- Claim C9: while the running flag is clear, the streaming `feed` overload
is a no-op — the state (staging buffer, fill pointer, settings, every
averaging accumulator) is returned unchanged and no frame is published; and
`stop` itself only clears the running flag and is idempotent. -/
theorem spectrumvis_stopped_feed_noop (s : VisState)
    (engine : (ℕ → Cplx) → ℕ → Cplx) (positiveOnly : Bool) (input : List Cplx)
    (hrun : s.running = false) :
    feed engine positiveOnly s input = (s, [])
    ∧ stop (stop s) = stop s
    ∧ (stop s).running = false
    ∧ (stop s).fftBuffer = s.fftBuffer
    ∧ (stop s).fftBufferFill = s.fftBufferFill
    ∧ (stop s).settings = s.settings
    ∧ (stop s).movingAvg = s.movingAvg
    ∧ (stop s).fixedSum = s.fixedSum
    ∧ (stop s).fixedCount = s.fixedCount
    ∧ (stop s).maxHold = s.maxHold
    ∧ (stop s).maxCount = s.maxCount := by
  refine ⟨?_, rfl, rfl, rfl, rfl, rfl, rfl, rfl, rfl, rfl, rfl⟩
  simp [feed, hrun]

theorem spectrumvis_stopped_feed_noop_witness :
    (stop sampleState).running = false
    ∧ feed sampleEngine false (stop sampleState) [] = (stop sampleState, []) :=
  ⟨rfl, (spectrumvis_stopped_feed_noop (stop sampleState) sampleEngine false [] rfl).1⟩

/-- Claim C10: the per-bin `feed` overload processes exactly `fftSize` bins
regardless of the `length` argument (in averaging mode None with a display
attached it publishes the buffer `feedBinsPS`, which covers every bin below
`fftSize`), and each bin at an index at or beyond `length` is computed from
the zero sample, so with the linear flag set its published power is 0. -/
theorem spectrumvis_feedBins_zero_padding (s : VisState) (begin_ : ℕ → Cplx)
    (length : ℕ)
    (hmode : s.settings.averagingMode = AveragingMode.avgModeNone)
    (hgl : s.glSpectrum = true)
    (hlin : s.settings.linear = true)
    (hdiv : 0 < s.powFFTDiv) :
    (feedBins s begin_ length).2 = [(feedBinsPS s begin_ length, fftSizeN s)]
    ∧ ∀ i, length ≤ i → i < fftSizeN s → feedBinsPS s begin_ length i = 0 := by
  constructor
  · simp [feedBins, hmode, hgl, pubIfDisplay]
  · intro i hi hisize
    simp only [feedBinsPS, if_pos hisize, if_neg (Nat.not_lt.mpr hi)]
    simp [dispTransform, hlin, powerOf]

theorem spectrumvis_feedBins_zero_padding_witness :
    sampleState.settings.linear = true
    ∧ (10 : ℕ) ≤ 20 ∧ (20 : ℕ) < fftSizeN sampleState
    ∧ feedBinsPS sampleState sampleBins 10 20 = 0 :=
  ⟨rfl, by decide, by decide,
   (spectrumvis_feedBins_zero_padding sampleState sampleBins 10 rfl rfl rfl
     zero_lt_one).2 20 (by decide) (by decide)⟩

/-- Claim C8: the frequency-reorder step of the AvgModeNone branch of `feed`:
with the positive-only flag clear, the published array holds the
(transformed) power of FFT output bin `i + fftSize/2` at position `i` and of
bin `i` at position `i + fftSize/2` (FFT-shift); with the flag set, the
power of bin `i` is written to both positions `2i` and `2i+1`. -/
theorem spectrumvis_reorder_fftshift (s : VisState)
    (engine : (ℕ → Cplx) → ℕ → Cplx) (i : ℕ)
    (hmode : s.settings.averagingMode = AveragingMode.avgModeNone)
    (hgl : s.glSpectrum = true)
    (hi : i < fftSizeN s / 2) :
    (processFrame engine false s).2
      = [(reorderNone s (engine (windowedBuf s)) false, fftSizeN s)]
    ∧ reorderNone s (engine (windowedBuf s)) false i
        = dispTransform s (powerOf (engine (windowedBuf s) (i + fftSizeN s / 2)))
    ∧ reorderNone s (engine (windowedBuf s)) false (i + fftSizeN s / 2)
        = dispTransform s (powerOf (engine (windowedBuf s) i))
    ∧ (processFrame engine true s).2
      = [(reorderNone s (engine (windowedBuf s)) true, fftSizeN s)]
    ∧ reorderNone s (engine (windowedBuf s)) true (2 * i)
        = dispTransform s (powerOf (engine (windowedBuf s) i))
    ∧ reorderNone s (engine (windowedBuf s)) true (2 * i + 1)
        = dispTransform s (powerOf (engine (windowedBuf s) i)) := by
  have h2 : ¬ (i + fftSizeN s / 2 < fftSizeN s / 2) := by omega
  have h3 : i + fftSizeN s / 2 < 2 * (fftSizeN s / 2) := by omega
  have h4 : i + fftSizeN s / 2 - fftSizeN s / 2 = i := by omega
  have h5 : 2 * i < 2 * (fftSizeN s / 2) := by omega
  have h6 : 2 * i / 2 = i := by omega
  have h7 : 2 * i + 1 < 2 * (fftSizeN s / 2) := by omega
  have h8 : (2 * i + 1) / 2 = i := by omega
  refine ⟨?_, ?_, ?_, ?_, ?_, ?_⟩
  · simp [processFrame, hmode, pubIfDisplay, hgl]
  · simp only [reorderNone, Bool.false_eq_true, if_false, if_pos hi]
  · simp only [reorderNone, Bool.false_eq_true, if_false, if_neg h2, if_pos h3, h4]
  · simp [processFrame, hmode, pubIfDisplay, hgl]
  · simp only [reorderNone, if_true, if_pos h5, h6]
  · simp only [reorderNone, if_true, if_pos h7, h8]

theorem spectrumvis_reorder_fftshift_witness :
    0 < fftSizeN sampleState / 2
    ∧ reorderNone sampleState (sampleEngine (windowedBuf sampleState)) false 0
        = dispTransform sampleState
            (powerOf (sampleEngine (windowedBuf sampleState) (0 + fftSizeN sampleState / 2))) :=
  ⟨by decide,
   (spectrumvis_reorder_fftshift sampleState sampleEngine 0 rfl rfl (by decide)).2.1⟩

theorem feedLoop_underfill (engine : (ℕ → Cplx) → ℕ → Cplx) (positiveOnly : Bool)
    (fuel : ℕ) (s : VisState) (input : List Cplx)
    (hne : input ≠ [])
    (hlt : input.length < s.refillSize - s.fftBufferFill) :
    feedLoop engine positiveOnly (fuel + 1) s input
      = ({ s with
            fftBuffer := writeChunk s.fftBuffer s.fftBufferFill
              (input.map (scaleIn s.scalef)),
            fftBufferFill := s.fftBufferFill + input.length,
            needMoreSamples := true }, []) := by
  obtain ⟨a, l, rfl⟩ := List.exists_cons_of_ne_nil hne
  simp only [feedLoop, List.isEmpty_cons, if_false, Bool.false_eq_true]
  rw [if_neg (Nat.not_le.mpr hlt)]

theorem feedLoop_exact_frame (engine : (ℕ → Cplx) → ℕ → Cplx) (positiveOnly : Bool)
    (fuel : ℕ) (s : VisState) (input : List Cplx)
    (hne : input ≠ [])
    (heq : s.refillSize - s.fftBufferFill = input.length)
    (hmode : s.settings.averagingMode = AveragingMode.avgModeNone)
    (hgl : s.glSpectrum = true) :
    (feedLoop engine positiveOnly (fuel + 2) s input).2.length = 1 := by
  obtain ⟨a, l, rfl⟩ := List.exists_cons_of_ne_nil hne
  simp only [feedLoop, List.isEmpty_cons, if_false, Bool.false_eq_true]
  rw [if_pos (le_of_eq heq), heq, List.drop_length]
  simp [feedLoop, processFrame, hmode, pubIfDisplay, hgl]

/-- Claim C3: with averaging mode None, a display sink attached, the pipeline
running and overlap 0% (refill size equals fftSize, empty staging buffer):
feeding exactly `fftSize` samples publishes exactly one frame, and feeding
`fftSize/2` samples in each of two consecutive calls publishes no frame
after the first call and exactly one frame after the second. -/
theorem spectrumvis_feed_overlap0_framing (s : VisState)
    (engine : (ℕ → Cplx) → ℕ → Cplx) (positiveOnly : Bool)
    (xs ys zs : List Cplx)
    (hrun : s.running = true) (hgl : s.glSpectrum = true)
    (hmode : s.settings.averagingMode = AveragingMode.avgModeNone)
    (hov : s.overlapSize = 0) (href : s.refillSize = fftSizeN s)
    (hfill : s.fftBufferFill = 0) (hn : 0 < fftSizeN s)
    (heven : 2 ∣ fftSizeN s)
    (hxs : xs.length = fftSizeN s)
    (hys : ys.length = fftSizeN s / 2) (hzs : zs.length = fftSizeN s / 2) :
    (feed engine positiveOnly s xs).2.length = 1
    ∧ (feed engine positiveOnly s ys).2.length = 0
    ∧ (feed engine positiveOnly (feed engine positiveOnly s ys).1 zs).2.length = 1 := by
  have hhalf : 0 < fftSizeN s / 2 := by omega
  have hxs_ne : xs ≠ [] := by
    intro h; rw [h] at hxs; simp at hxs; omega
  have hys_ne : ys ≠ [] := by
    intro h; rw [h] at hys; simp at hys; omega
  have hzs_ne : zs ≠ [] := by
    intro h; rw [h] at hzs; simp at hzs; omega
  have hys_lt : ys.length < s.refillSize - s.fftBufferFill := by
    rw [hys, href, hfill]; omega
  have hpart2 := feedLoop_underfill engine positiveOnly ys.length s ys hys_ne hys_lt
  constructor
  · rw [feed, if_neg (by rw [hrun]; simp),
        if_neg (by rw [hgl]; simp)]
    have hfl : xs.length + 1 = (fftSizeN s - 1) + 2 := by omega
    rw [hfl]
    exact feedLoop_exact_frame engine positiveOnly (fftSizeN s - 1) s xs hxs_ne
      (by rw [href, hfill, hxs]; omega) hmode hgl
  constructor
  · rw [feed, if_neg (by rw [hrun]; simp),
        if_neg (by rw [hgl]; simp), hpart2]
    rfl
  · have hfeed_ys : feed engine positiveOnly s ys
        = ({ s with
              fftBuffer := writeChunk s.fftBuffer s.fftBufferFill
                (List.map (scaleIn s.scalef) ys),
              fftBufferFill := s.fftBufferFill + ys.length,
              needMoreSamples := true }, []) := by
      rw [feed, if_neg (by rw [hrun]; simp), if_neg (by rw [hgl]; simp)]
      exact hpart2
    rw [hfeed_ys]
    show (feed engine positiveOnly
      { s with
          fftBuffer := writeChunk s.fftBuffer s.fftBufferFill
            (List.map (scaleIn s.scalef) ys),
          fftBufferFill := s.fftBufferFill + ys.length,
          needMoreSamples := true } zs).2.length = 1
    rw [feed, if_neg (by simp [hrun]), if_neg (by simp [hgl])]
    have hfl : zs.length + 1 = (fftSizeN s / 2 - 1) + 2 := by omega
    rw [hfl]
    refine feedLoop_exact_frame engine positiveOnly (fftSizeN s / 2 - 1) _ zs hzs_ne
      ?_ hmode hgl
    show s.refillSize - (s.fftBufferFill + ys.length) = zs.length
    rw [href, hfill, hys, hzs]
    omega

theorem spectrumvis_feed_overlap0_framing_witness :
    0 < fftSizeN sampleState
    ∧ (feed sampleEngine false sampleState (List.replicate 64 ⟨0, 0⟩)).2.length = 1
    ∧ (feed sampleEngine false sampleState (List.replicate 32 ⟨0, 0⟩)).2.length = 0
    ∧ (feed sampleEngine false
        (feed sampleEngine false sampleState (List.replicate 32 ⟨0, 0⟩)).1
        (List.replicate 32 ⟨0, 0⟩)).2.length = 1 := by
  have h := spectrumvis_feed_overlap0_framing sampleState sampleEngine false
    (List.replicate 64 ⟨0, 0⟩) (List.replicate 32 ⟨0, 0⟩) (List.replicate 32 ⟨0, 0⟩)
    rfl rfl rfl rfl rfl rfl (by decide) (by decide) rfl rfl rfl
  exact ⟨by decide, h.1, h.2.1, h.2.2⟩

/-! ### ICFIR: CIC-compensation impulse synthesis (`src/wdsp/icfir.cpp`)

The parameters of `ICFIR::icfir_impulse`. Float inputs are embedded as exact
rationals (every float value is rational); the frequency-grid guards and
index computations of the source are then exact rational/integer
computations, while the trigonometric magnitude math lives in `ℝ`. -/

/-- Parameter record for `ICFIR::icfir_impulse`. -/
structure IcfirParams where
  N : ℕ
  DD : ℕ
  R : ℕ
  Pairs : ℕ
  runrate : ℚ
  cicrate : ℚ
  cutoff : ℚ
  xtype : ℕ
  xbw : ℚ
  rtype : ℕ
  scale : ℚ
  wintype : ℕ

/-- C-style `(int)` cast of a nonnegative-or-negative float value, i.e.
truncation toward zero, on the exact rational. -/
def cIntOfRat (q : ℚ) : ℤ :=
  if q < 0 then -(Int.floor (-q)) else Int.floor q

/-- Normalized cutoff frequency `ft = cutoff / cicrate` (icfir.cpp line 181). -/
def ftQ (p : IcfirParams) : ℚ := p.cutoff / p.cicrate

/-- Number of unique frequency samples `u_samps = (N + 1) / 2` (line 182). -/
def u_samps (p : IcfirParams) : ℕ := (p.N + 1) / 2

/-- Number of unique samples within the passband
`c_samps = (int)(cutoff / runrate * N) + (N + 1)/2 - N/2` (line 183). -/
def c_samps (p : IcfirParams) : ℤ :=
  cIntOfRat (p.cutoff / p.runrate * p.N) + ((p.N + 1) / 2 : ℕ) - (p.N / 2 : ℕ)

/-- Number of unique samples in the transition region
`x_samps = (int)(xbw / runrate * N)` (line 184). -/
def x_samps (p : IcfirParams) : ℤ :=
  cIntOfRat (p.xbw / p.runrate * p.N)

/-- Sample offset from center
`offset = 0.5 - 0.5 * ((N + 1)/2 - N/2)` (line 185): `1/2` for even N, `0` for odd N. -/
def offsetQ (p : IcfirParams) : ℚ :=
  1 / 2 - 1 / 2 * ((((p.N + 1) / 2 : ℕ) : ℤ) - ((p.N / 2 : ℕ) : ℤ) : ℚ)

/-- The rate ratio `L = cicrate / runrate` (line 188). -/
def LQ (p : IcfirParams) : ℚ := p.cicrate / p.runrate

/-- Normalized frequency of sample `i`: `fn = ri / (L * N)` with
`ri = offset + i` (lines 200, 202). -/
def fnQ (p : IcfirParams) (i : ℕ) : ℚ :=
  (offsetQ p + i) / (LQ p * p.N)

/-- The raw peak-gain expression `DD * R * sin(pi * ft / R) / sin(pi * DD * ft)`
(line 195). -/
noncomputable def peakRaw (p : IcfirParams) : ℝ :=
  (p.DD : ℝ) * p.R * Real.sin (Real.pi * (ftQ p : ℝ) / p.R)
    / Real.sin (Real.pi * p.DD * (ftQ p : ℝ))

/-- The peak gain after the sign flip `if (tmp < 0) tmp = -tmp` (lines 195-196). -/
noncomputable def peakGain (p : IcfirParams) : ℝ :=
  if peakRaw p < 0 then -peakRaw p else peakRaw p

/-- The normalized scale `local_scale = scale / pow(tmp, Pairs)` (line 197). -/
noncomputable def localScale (p : IcfirParams) : ℝ :=
  (p.scale : ℝ) / peakGain p ^ p.Pairs

/-- The in-band magnitude factor of sample `i` (lines 205-207 resp. 222-224):
`1` when `fn == 0`, otherwise `|sin(pi*DD*fn) / (DD*R*sin(pi*fn/R))|`
(written with the source's conditional negation). -/
noncomputable def inbandTmp (p : IcfirParams) (i : ℕ) : ℝ :=
  if fnQ p i = 0 then 1
  else
    let t := Real.sin (Real.pi * p.DD * (fnQ p i : ℝ))
      / ((p.DD : ℝ) * p.R * Real.sin (Real.pi * (fnQ p i : ℝ) / p.R))
    if t < 0 then -t else t

/-- The in-band magnitude `mag = pow(tmp, Pairs) * local_scale` (line 208/225). -/
noncomputable def inbandMag (p : IcfirParams) (i : ℕ) : ℝ :=
  inbandTmp p i ^ p.Pairs * localScale p

/-- The running magnitude of the 4th-power-rolloff branch (`xtype == 0`,
lines 200-213): in-band samples are computed directly, past-cutoff samples
update the previous magnitude multiplicatively by `ft^4 / fn^4`. The C
variable `mag` starts at `0`. -/
noncomputable def magX0 (p : IcfirParams) : ℕ → ℝ
  | 0 =>
    if fnQ p 0 ≤ ftQ p then inbandMag p 0
    else 0 * (((ftQ p : ℝ) * ftQ p * ftQ p * ftQ p)
        / ((fnQ p 0 : ℝ) * fnQ p 0 * fnQ p 0 * fnQ p 0))
  | i + 1 =>
    if fnQ p (i + 1) ≤ ftQ p then inbandMag p (i + 1)
    else magX0 p i * (((ftQ p : ℝ) * ftQ p * ftQ p * ftQ p)
        / ((fnQ p (i + 1) : ℝ) * fnQ p (i + 1) * fnQ p (i + 1) * fnQ p (i + 1)))

/-- The value of the C variable `mag` after iteration `i` of the
raised-cosine branch (`xtype == 1`, lines 217-232): it is updated only while
`i < c_samps` and retains its last in-band value afterwards (initial value `0`). -/
noncomputable def magX1 (p : IcfirParams) : ℕ → ℝ
  | 0 => if (0 : ℤ) < c_samps p then inbandMag p 0 else 0
  | i + 1 => if ((i : ℤ) + 1) < c_samps p then inbandMag p (i + 1) else magX1 p i

/-- The raised-cosine taper table entry `xistion[j] = 0.5 * (cos(j * delta) + 1)`
with `delta = pi / x_samps` (lines 186-194). -/
noncomputable def xistionAt (p : IcfirParams) (j : ℕ) : ℝ :=
  0.5 * (Real.cos ((j : ℝ) * (Real.pi / ((x_samps p : ℤ) : ℝ))) + 1)

/-- The magnitude array entry of the raised-cosine branch (`xtype == 1`,
lines 217-232): in-band below `c_samps`, tapered by `xistion` inside the
transition, zero beyond it. -/
noncomputable def amagX1 (p : IcfirParams) (i : ℕ) : ℝ :=
  if (i : ℤ) < c_samps p then inbandMag p i
  else if (i : ℤ) ≤ c_samps p + x_samps p then
    magX1 p i * xistionAt p ((i : ℤ) - c_samps p).toNat
  else 0

/-- The unique-half magnitude array entry `A[i]` for `i < u_samps`: the
`xtype` branch dispatch of `icfir_impulse`; for any other `xtype` the array
keeps its zero initialization (`std::vector<float> A(N)`). -/
noncomputable def Afun (p : IcfirParams) (i : ℕ) : ℝ :=
  if p.xtype = 0 then magX0 p i
  else if p.xtype = 1 then amagX1 p i
  else 0

/-- The full magnitude array entry after the mirroring loops (lines 234-239):
for odd N, `A[i] = A[u_samps - j]` with `j` starting at 2; for even N, with
`j` starting at 1. -/
noncomputable def AfullFun (p : IcfirParams) (i : ℕ) : ℝ :=
  if i < u_samps p then Afun p i
  else if p.N % 2 = 1 then Afun p (u_samps p - (2 + (i - u_samps p)))
  else Afun p (u_samps p - (1 + (i - u_samps p)))

/-- The complete length-N magnitude array `A` produced by `icfir_impulse`
before the frequency-sampling transform. -/
noncomputable def AfullList (p : IcfirParams) : List ℝ :=
  (List.range p.N).map (AfullFun p)

/-- Modelled from the spec: `FIR::fir_fsamp` (fir.cpp / fir.hpp, not under
`src/`), the window-weighted frequency-sampling inverse transform of
section 4.1 step 5, which fills the caller's buffer with exactly `2N`
time-domain taps. Only this length contract is relied upon by any claim, so
the tap values themselves are left unmodelled (zeros). -/
noncomputable def fir_fsamp (n : ℕ) (_A : List ℝ) (_rtype : ℕ) (_scale : ℝ)
    (_wintype : ℕ) : List ℝ :=
  List.replicate (2 * n) 0

/-- Embedding of `ICFIR::icfir_impulse` (icfir.cpp lines 146-242): compute
the magnitude array, mirror it, resize the impulse buffer to `2N` and hand
it to the frequency-sampling transform (called with scale `1.0`, the output
scale having been folded into `local_scale`). -/
noncomputable def icfir_impulse (p : IcfirParams) : List ℝ :=
  fir_fsamp p.N (AfullList p) p.rtype 1 p.wintype

/-- Claim C6: for every parameter record with requested order `N`, the
impulse response produced by `icfir_impulse` has exactly `2N` tap values
(the buffer is resized to `2 * N` and filled in place by the
frequency-sampling transform). -/
theorem icfir_impulse_length (p : IcfirParams) :
    (icfir_impulse p).length = 2 * p.N := by
  simp [icfir_impulse, fir_fsamp]

theorem getD_range_map (f : ℕ → ℝ) (n i : ℕ) (h : i < n) :
    ((List.range n).map f).getD i 0 = f i := by
  rw [List.getD_eq_getElem?_getD, List.getElem?_map, List.getElem?_range h]
  rfl

/-- Claim C1 (amended): for even filter order `N`, the mirroring loop of
`icfir_impulse` makes the magnitude array symmetric about the half-sample
center: every mirrored entry at index `i ≥ N/2` equals the unique-half
entry at index `N - 1 - i` (so `A[N-1] = A[0]`, `A[N-2] = A[1]`, ...), not
the entry at index `N - i` as the claim's examples state. -/
theorem icfir_mirror_even_symm (p : IcfirParams) (i : ℕ)
    (heven : p.N % 2 = 0) (hlo : u_samps p ≤ i) (hhi : i < p.N) :
    (AfullList p).getD i 0 = (AfullList p).getD (p.N - 1 - i) 0 := by
  have hu : 2 * u_samps p = p.N := by unfold u_samps; omega
  have hj : p.N - 1 - i < u_samps p := by omega
  rw [AfullList, getD_range_map _ _ _ hhi, getD_range_map _ _ _ (by omega)]
  rw [AfullFun, if_neg (by omega), if_neg (by omega)]
  rw [AfullFun, if_pos hj]
  congr 1
  omega

/-- The concrete parameter record refuting the mirroring rule as stated in
the claim: `N = 4`, degenerate CIC (`DD = R = Pairs = 1`), unit rates,
cutoff `1/4`, 4th-power-rolloff transition, unit scale. -/
def pC1 : IcfirParams :=
  { N := 4, DD := 1, R := 1, Pairs := 1, runrate := 1, cicrate := 1,
    cutoff := 1 / 4, xtype := 0, xbw := 0, rtype := 1, scale := 1, wintype := 0 }

theorem icfir_mirror_even_symm_witness :
    pC1.N % 2 = 0 ∧ u_samps pC1 ≤ 3 ∧ 3 < pC1.N
    ∧ (AfullList pC1).getD 3 0 = (AfullList pC1).getD (pC1.N - 1 - 3) 0 :=
  ⟨by decide, by decide, by decide,
   icfir_mirror_even_symm pC1 3 (by decide) (by decide) (by decide)⟩

theorem inbandTmp_dd1_r1 (p : IcfirParams) (i : ℕ) (hdd : p.DD = 1) (hr : p.R = 1)
    (hfn : fnQ p i ≠ 0) (hsin : Real.sin (Real.pi * (fnQ p i : ℝ)) ≠ 0) :
    inbandTmp p i = 1 := by
  unfold inbandTmp
  rw [if_neg hfn, hdd, hr]
  simp only [Nat.cast_one, mul_one, one_mul, div_one, div_self hsin]
  norm_num

theorem peakGain_dd1_r1 (p : IcfirParams) (hdd : p.DD = 1) (hr : p.R = 1)
    (hsin : Real.sin (Real.pi * (ftQ p : ℝ)) ≠ 0) :
    peakGain p = 1 := by
  unfold peakGain peakRaw
  rw [hdd, hr]
  simp only [Nat.cast_one, mul_one, one_mul, div_one, div_self hsin]
  norm_num

theorem sin_pi_mul_pos_ne_zero (q : ℝ) (h0 : 0 < q) (h1 : q < 1) :
    Real.sin (Real.pi * q) ≠ 0 := by
  refine ne_of_gt (Real.sin_pos_of_pos_of_lt_pi ?_ ?_)
  · positivity
  · nlinarith [Real.pi_pos]

theorem magX0_pC1_0 : magX0 pC1 0 = 1 := by
  have hfn : fnQ pC1 0 = 1 / 8 := by norm_num [fnQ, offsetQ, LQ, pC1]
  have hfn' : ((fnQ pC1 0 : ℚ) : ℝ) = 1 / 8 := by rw [hfn]; norm_num
  have hft : ((ftQ pC1 : ℚ) : ℝ) = 1 / 4 := by
    rw [show ftQ pC1 = 1 / 4 from by norm_num [ftQ, pC1]]; norm_num
  rw [magX0, if_pos (by norm_num [fnQ, ftQ, offsetQ, LQ, pC1])]
  rw [inbandMag, inbandTmp_dd1_r1 pC1 0 rfl rfl (by norm_num [fnQ, offsetQ, LQ, pC1]) ?_,
      localScale, peakGain_dd1_r1 pC1 rfl rfl ?_]
  · norm_num [pC1]
  · rw [hft]; exact sin_pi_mul_pos_ne_zero _ (by norm_num) (by norm_num)
  · rw [hfn']; exact sin_pi_mul_pos_ne_zero _ (by norm_num) (by norm_num)

theorem magX0_pC1_1 : magX0 pC1 1 = 16 / 81 := by
  have hfn : ((fnQ pC1 1 : ℚ) : ℝ) = 3 / 8 := by
    rw [show fnQ pC1 1 = 3 / 8 from by norm_num [fnQ, offsetQ, LQ, pC1]]; norm_num
  have hft : ((ftQ pC1 : ℚ) : ℝ) = 1 / 4 := by
    rw [show ftQ pC1 = 1 / 4 from by norm_num [ftQ, pC1]]; norm_num
  rw [show (1 : ℕ) = 0 + 1 from rfl, magX0,
      if_neg (by norm_num [fnQ, ftQ, offsetQ, LQ, pC1]), magX0_pC1_0, hfn, hft]
  norm_num

/-- Claim C1 counterexample: at `pC1` (even `N = 4`) the documented rule
`A[N-1] == A[1]` fails: the mirrored entry `A[3]` equals `A[0] = 1`, while
`A[1] = 16/81`. -/
theorem icfir_mirror_claim_cex :
    (AfullList pC1).getD (pC1.N - 1) 0 ≠ (AfullList pC1).getD 1 0 := by
  have h3 : (AfullList pC1).getD 3 0 = magX0 pC1 0 := by
    rw [AfullList, getD_range_map _ _ _ (by decide)]
    rw [AfullFun, if_neg (by decide), if_neg (by decide)]
    rw [show u_samps pC1 - (1 + (3 - u_samps pC1)) = 0 from by decide]
    rfl
  have h1 : (AfullList pC1).getD 1 0 = magX0 pC1 1 := by
    rw [AfullList, getD_range_map _ _ _ (by decide)]
    rw [AfullFun, if_pos (by decide)]
    rfl
  show (AfullList pC1).getD 3 0 ≠ (AfullList pC1).getD 1 0
  rw [h3, h1, magX0_pC1_0, magX0_pC1_1]
  norm_num

/-- The concrete parameter record refuting claim C2 as stated: odd `N = 3`
(so the first frequency sample is exactly `fn = 0`), `DD = 1`, `R = 8`,
`Pairs = 4`, unit rates, cutoff `4/3`, unit scale. -/
def pC2 : IcfirParams :=
  { N := 3, DD := 1, R := 8, Pairs := 4, runrate := 1, cicrate := 1,
    cutoff := 4 / 3, xtype := 0, xbw := 0, rtype := 1, scale := 1, wintype := 0 }

theorem fnQ_pC2_0 : fnQ pC2 0 = 0 := by
  norm_num [fnQ, offsetQ, LQ, pC2]

theorem ftQ_pC2_nonneg : 0 ≤ ftQ pC2 := by
  norm_num [ftQ, pC2]

theorem peakGain_pC2 : peakGain pC2 = 8 / Real.sqrt 3 := by
  have hs3 : 0 < Real.sqrt 3 := Real.sqrt_pos.mpr (by norm_num)
  have hR : (pC2.R : ℝ) = 8 := by norm_num [pC2]
  have hDD : (pC2.DD : ℝ) = 1 := by norm_num [pC2]
  have hft : ((ftQ pC2 : ℚ) : ℝ) = 4 / 3 := by
    rw [show ftQ pC2 = 4 / 3 from by norm_num [ftQ, pC2]]; norm_num
  unfold peakGain peakRaw
  rw [hR, hDD, hft]
  have h1 : Real.pi * (4 / 3 : ℝ) / 8 = Real.pi / 6 := by ring
  have h2 : Real.pi * 1 * (4 / 3 : ℝ) = Real.pi + Real.pi / 3 := by ring
  have h3 : Real.sin (Real.pi + Real.pi / 3) = -(Real.sqrt 3 / 2) := by
    rw [Real.sin_add, Real.sin_pi, Real.cos_pi, Real.sin_pi_div_three]; ring
  rw [h1, h2, Real.sin_pi_div_six, h3]
  have hval : (1 : ℝ) * 8 * (1 / 2) / -(Real.sqrt 3 / 2) = -(8 / Real.sqrt 3) := by
    field_simp
  have hneg : (1 : ℝ) * 8 * (1 / 2) / -(Real.sqrt 3 / 2) < 0 := by
    rw [hval]
    have : 0 < 8 / Real.sqrt 3 := by positivity
    linarith
  rw [if_pos hneg, hval, neg_neg]

theorem localScale_pC2 : localScale pC2 = 9 / 4096 := by
  have hs3 : Real.sqrt 3 ^ 4 = 9 := by
    have h := Real.sq_sqrt (by norm_num : (0 : ℝ) ≤ 3)
    calc Real.sqrt 3 ^ 4 = (Real.sqrt 3 ^ 2) ^ 2 := by ring
    _ = 9 := by rw [h]; norm_num
  have hs3' : Real.sqrt 3 ≠ 0 := ne_of_gt (Real.sqrt_pos.mpr (by norm_num))
  unfold localScale
  rw [peakGain_pC2, show pC2.Pairs = 4 from rfl, show (pC2.scale : ℝ) = 1 from by norm_num [pC2]]
  rw [div_pow, hs3]
  norm_num

theorem magX0_pC2_0 : magX0 pC2 0 = localScale pC2 := by
  rw [magX0, if_pos (by rw [fnQ_pC2_0]; exact ftQ_pC2_nonneg), inbandMag, inbandTmp,
      if_pos fnQ_pC2_0, one_pow, one_mul]

/-- Claim C2 counterexample: at `pC2` (`DD = 1`, `R = 8`, `Pairs = 4`, sample
0 at normalized frequency `fn = 0`) the synthesized magnitude is
`scale / peakGain^4 = 9/4096`, not `1 * scale = 1`: the `fn = 0` special
case contributes the factor 1, but the peak-gain normalization
`local_scale = scale / pow(peak, Pairs)` still divides the result. -/
theorem icfir_fn0_scale_cex :
    pC2.DD = 1 ∧ pC2.R = 8 ∧ pC2.Pairs = 4 ∧ fnQ pC2 0 = 0
    ∧ (AfullList pC2).getD 0 0 ≠ (pC2.scale : ℝ) := by
  refine ⟨rfl, rfl, rfl, fnQ_pC2_0, ?_⟩
  have h0 : (AfullList pC2).getD 0 0 = magX0 pC2 0 := by
    rw [AfullList, getD_range_map _ _ _ (by decide), AfullFun, if_pos (by decide)]
    rfl
  rw [h0, magX0_pC2_0, localScale_pC2]
  norm_num [pC2]

/-- Claim C2 (amended): for filter parameters `DD = 1`, `R = 8`, `Pairs = 4`
(4th-power-rolloff transition), at any frequency sample whose normalized
frequency is exactly 0 — the special-cased division-by-zero point — the
synthesized magnitude equals `1` times the **normalized** scale
`local_scale = scale / peakGain^Pairs`, i.e. the scale factor passed in
divided by the CIC peak-gain normalization (it equals the raw scale only
when the peak gain is 1). -/
theorem icfir_fn0_local_scale (p : IcfirParams) (i : ℕ)
    (hdd : p.DD = 1) (hr : p.R = 8) (hpairs : p.Pairs = 4)
    (hx : p.xtype = 0) (h0 : fnQ p i = 0) (hft : 0 ≤ ftQ p)
    (hiu : i < u_samps p) :
    (AfullList p).getD i 0 = localScale p := by
  have hN : i < p.N := by unfold u_samps at hiu; omega
  rw [AfullList, getD_range_map _ _ _ hN, AfullFun, if_pos hiu, Afun, if_pos hx]
  cases i with
  | zero =>
    rw [magX0, if_pos (by rw [h0]; exact hft), inbandMag, inbandTmp, if_pos h0,
        one_pow, one_mul]
  | succ j =>
    rw [magX0, if_pos (by rw [h0]; exact hft), inbandMag, inbandTmp, if_pos h0,
        one_pow, one_mul]

theorem icfir_fn0_local_scale_witness :
    fnQ pC2 0 = 0 ∧ 0 < u_samps pC2
    ∧ (AfullList pC2).getD 0 0 = localScale pC2 :=
  ⟨fnQ_pC2_0, by decide,
   icfir_fn0_local_scale pC2 0 rfl rfl rfl rfl fnQ_pC2_0 ftQ_pC2_nonneg (by decide)⟩

/-- The last in-band magnitude of the raised-cosine branch: the value the C
variable `mag` holds when the loop leaves the in-band region (`0` when there
are no in-band samples, since `mag` is initialized to `0`). -/
noncomputable def lastInbandMag (p : IcfirParams) : ℝ :=
  if 0 < c_samps p then inbandMag p ((c_samps p).toNat - 1) else 0

theorem magX1_stable (p : IcfirParams) (i : ℕ) (h : c_samps p ≤ (i : ℤ)) :
    magX1 p i = lastInbandMag p := by
  induction i with
  | zero =>
    rw [magX1, lastInbandMag, if_neg (by omega), if_neg (by omega)]
  | succ j ih =>
    rw [magX1, if_neg (by push_cast at h ⊢; omega)]
    by_cases hc : c_samps p ≤ (j : ℤ)
    · exact ih hc
    · have hcj : c_samps p = (j : ℤ) + 1 := by push_cast at h; omega
      have hpos : 0 < c_samps p := by omega
      rw [lastInbandMag, if_pos hpos]
      have htn : (c_samps p).toNat - 1 = j := by omega
      rw [htn]
      cases j with
      | zero => rw [magX1, if_pos (by omega)]
      | succ k => rw [magX1, if_pos (by omega)]

theorem xistionAt_mid (p : IcfirParams) (hpos : 0 < x_samps p)
    (heven : 2 ∣ x_samps p) :
    xistionAt p (x_samps p / 2).toNat = 1 / 2 := by
  obtain ⟨k, hk⟩ := heven
  have hk1 : 1 ≤ k := by omega
  have h3 : ((x_samps p / 2).toNat : ℤ) = k := by omega
  have h4 : (((x_samps p / 2).toNat : ℕ) : ℝ) = (k : ℝ) := by exact_mod_cast h3
  have h5 : ((x_samps p : ℤ) : ℝ) = 2 * (k : ℝ) := by exact_mod_cast hk
  have hk0 : (k : ℝ) ≠ 0 := by
    exact_mod_cast show (k : ℤ) ≠ 0 from by omega
  have harg : (((x_samps p / 2).toNat : ℕ) : ℝ) * (Real.pi / ((x_samps p : ℤ) : ℝ))
      = Real.pi / 2 := by
    rw [h4, h5]
    field_simp
    ring
  rw [xistionAt, harg, Real.cos_pi_div_two]
  norm_num

/-- Claim C7: for the raised-cosine transition (`xtype = 1`), with a
positive even number of transition samples (and at least one in-band
sample, the transition midpoint lying inside the unique half of the
array), the magnitude at the midpoint of the transition region equals
exactly `1/2` times the last in-band magnitude: the half-cosine taper
`0.5*(cos(phase)+1)` evaluates to `0.5` at phase `pi/2`. -/
theorem icfir_raised_cosine_midpoint (p : IcfirParams)
    (hx : p.xtype = 1) (hc : 0 < c_samps p)
    (hxs : 0 < x_samps p) (heven : 2 ∣ x_samps p)
    (hm : (c_samps p + x_samps p / 2).toNat < u_samps p) :
    (AfullList p).getD (c_samps p + x_samps p / 2).toNat 0
      = 1 / 2 * lastInbandMag p := by
  have hm0 : (((c_samps p + x_samps p / 2).toNat : ℕ) : ℤ)
      = c_samps p + x_samps p / 2 := by omega
  have hN : (c_samps p + x_samps p / 2).toNat < p.N := by
    unfold u_samps at hm; omega
  rw [AfullList, getD_range_map _ _ _ hN, AfullFun, if_pos hm, Afun, hx]
  rw [if_neg (by norm_num), if_pos rfl]
  rw [amagX1, if_neg (by omega), if_pos (by omega)]
  rw [magX1_stable p _ (by omega)]
  have hidx : ((((c_samps p + x_samps p / 2).toNat : ℕ) : ℤ) - c_samps p).toNat
      = (x_samps p / 2).toNat := by omega
  rw [hidx, xistionAt_mid p hxs heven]
  ring

/-- A concrete raised-cosine parameter record for the C7 witness: `N = 16`,
unit rates, cutoff `1/4`, transition width `1/4`, so `c_samps = 4`,
`x_samps = 4` (even), and the transition midpoint is sample 6 of the 8
unique samples. -/
def pC7 : IcfirParams :=
  { N := 16, DD := 1, R := 1, Pairs := 1, runrate := 1, cicrate := 1,
    cutoff := 1 / 4, xtype := 1, xbw := 1 / 4, rtype := 1, scale := 1, wintype := 0 }

theorem c_samps_pC7 : c_samps pC7 = 4 := by
  norm_num [c_samps, cIntOfRat, pC7]

theorem x_samps_pC7 : x_samps pC7 = 4 := by
  norm_num [x_samps, cIntOfRat, pC7]

theorem c_samps_pC7_pos : 0 < c_samps pC7 := by rw [c_samps_pC7]; decide

theorem x_samps_pC7_pos : 0 < x_samps pC7 := by rw [x_samps_pC7]; decide

theorem x_samps_pC7_even : 2 ∣ x_samps pC7 := by rw [x_samps_pC7]; decide

theorem mid_pC7_lt : (c_samps pC7 + x_samps pC7 / 2).toNat < u_samps pC7 := by
  rw [c_samps_pC7, x_samps_pC7]; decide

theorem icfir_raised_cosine_midpoint_witness :
    0 < c_samps pC7 ∧ 0 < x_samps pC7 ∧ 2 ∣ x_samps pC7
    ∧ (AfullList pC7).getD (c_samps pC7 + x_samps pC7 / 2).toNat 0
        = 1 / 2 * lastInbandMag pC7 :=
  ⟨c_samps_pC7_pos, x_samps_pC7_pos, x_samps_pC7_even,
   icfir_raised_cosine_midpoint pC7 rfl c_samps_pC7_pos x_samps_pC7_pos
     x_samps_pC7_even mid_pC7_lt⟩

end SdrAngel
